import Mathlib

/-!
Shallow embedding of the GoProj arithmetic-question service (src/webApi.go)

This file models the core of `webApi.go`: the expression validator
(`validateExpression`), the evaluator (`evaluateExpression`), and the
error-recording behaviour of the two HTTP handlers (`evaluateHandler`,
`validateHandler`).

Modelling conventions:

* A Go string is modelled through its rune sequence (`List Char`); all
  characters occurring in the grammar are ASCII, where bytes and runes agree.
* `strconv.Atoi` is modelled by `goAtoi` (parse, with the 64-bit `int` range
  check); `parseNum` mirrors the Go helper that discards the error, returning
  `0` on a syntax error and the clamped value on a range error, exactly as
  Go's `Atoi` does.
* `float64` values and their arithmetic are modelled as exact rationals
  (`Rat`).  Every concrete value appearing in the verified scenarios is a
  small integer, where `float64` arithmetic is exact, so the model and the
  code agree on all of them; the fold structure of the evaluator is
  independent of the number representation.
* `strings.ToLower` is modelled on ASCII letters (it is the identity on every
  other character that can influence keyword or integer parsing).
* A Go slice access out of bounds panics; the evaluator model returns `none`
  exactly where `webApi.go` would panic, so "never panics" becomes
  "never returns `none`".
* The process-wide error map `evaluationErrors` is modelled as a function
  from keys to optional records; the occurrence counter is modelled as an
  unbounded integer (no realizable request sequence overflows a 64-bit
  counter).
-/

/-- Reason string `InvalidExpressionError` from webApi.go. -/
def InvalidExpressionError : String := "Invalid expression"

/-- Reason string `UnsupportedOperationError` from webApi.go. -/
def UnsupportedOperationError : String := "Unsupported operation"

/-- Reason string `NonMathQuestionError` from webApi.go. -/
def NonMathQuestionError : String := "Non-math question"

/-- Keyword constants from webApi.go. -/
def KeywordPlus : String := "plus"

def KeywordMinus : String := "minus"

def KeywordMultiplied : String := "multiplied"

def KeywordDivided : String := "divided"

def KeywordBy : String := "by"

def KeywordWhat : String := "what"

def KeywordIs : String := "is"

/-- Endpoint path constants from webApi.go. -/
def EvaluateEndpoint : String := "/evaluate"

def ValidateEndpoint : String := "/validate"

/-- Model of `unicode.IsSpace`, the separator predicate used by `strings.Fields`. -/
def goIsSpace (c : Char) : Bool :=
  c = ' ' ∨ c = '\t' ∨ c = '\n' ∨ c.toNat = 11 ∨ c.toNat = 12 ∨ c = '\r' ∨
  c.toNat = 0x85 ∨ c.toNat = 0xA0 ∨ c.toNat = 0x1680 ∨
  (0x2000 ≤ c.toNat ∧ c.toNat ≤ 0x200A) ∨ c.toNat = 0x2028 ∨
  c.toNat = 0x2029 ∨ c.toNat = 0x202F ∨ c.toNat = 0x205F ∨
  c.toNat = 0x3000

/-- Model of `strings.ToLower`, character-wise, on the ASCII letters that the grammar
can distinguish (identity elsewhere). -/
def goToLower (c : Char) : Char :=
  if 'A' ≤ c ∧ c ≤ 'Z' then Char.ofNat (c.toNat + 32) else c

/-- Worker for `strings.Fields`: accumulate the current word (reversed) and
emit it at each separator run. -/
def fieldsAux : List Char → List Char → List String
  | [], cur => if cur.isEmpty then [] else [String.mk cur.reverse]
  | c :: cs, cur =>
    if goIsSpace c then
      if cur.isEmpty then fieldsAux cs [] else String.mk cur.reverse :: fieldsAux cs []
    else fieldsAux cs (c :: cur)

/-- Model of `strings.Fields`: split around runs of whitespace, discarding empties. -/
def goFields (cs : List Char) : List String :=
  fieldsAux cs []

/-- Digit run of `strconv.Atoi`: value of an all-digit character list
(`some 0` on the empty list; the callers guarantee non-emptiness). -/
def digitsVal (cs : List Char) : Option Nat :=
  cs.foldl
    (fun acc c =>
      match acc with
      | none => none
      | some n => if c.isDigit then some (n * 10 + (c.toNat - 48)) else none)
    (some 0)

/-- Model of `strconv.Atoi` without the range check: an optional single sign followed
by at least one digit. -/
def atoiRaw (cs : List Char) : Option Int :=
  match cs with
  | [] => none
  | '+' :: rest => if rest.isEmpty then none else (digitsVal rest).map Int.ofNat
  | '-' :: rest => if rest.isEmpty then none else (digitsVal rest).map (fun n => -(n : Int))
  | _ => (digitsVal cs).map Int.ofNat

/-- Upper bound of Go's 64-bit `int`. -/
def goMaxInt : Int := 2 ^ 63 - 1

/-- Lower bound of Go's 64-bit `int`. -/
def goMinInt : Int := -(2 ^ 63)

/-- Model of `strconv.Atoi` as used for validity checks: `some n` exactly when Go
returns `err == nil`. -/
def goAtoi (s : String) : Option Int :=
  match atoiRaw s.data with
  | none => none
  | some n => if n < goMinInt ∨ goMaxInt < n then none else some n

/-- Function `parseNum` from webApi.go: `strconv.Atoi` with the error discarded
(`0` on a syntax error, the clamped value on a range error), widened to the
exact-number model of `float64`. -/
def parseNum (s : String) : Rat :=
  match atoiRaw s.data with
  | none => 0
  | some n => if goMaxInt < n then (goMaxInt : Rat) else if n < goMinInt then (goMinInt : Rat) else (n : Rat)

/-- Function `isValidKeyword` from webApi.go. -/
def isValidKeyword (kw : String) : Bool :=
  [KeywordPlus, KeywordMinus, KeywordMultiplied, KeywordDivided].contains kw

/-- The token pipeline shared by validator and evaluator: strip the trailing
`?` (one byte, already known to be present), lowercase, split into fields. -/
def tokensOf (s : String) : List String :=
  goFields (s.data.dropLast.map goToLower)

/-- The keyword/operand pair walk of `validateExpression` (the `for` loop at
webApi.go:120-149), expressed on the tokens from index 3 on.  The index
arithmetic `i += 2` / `i++` of the source becomes dropping two or three
tokens per iteration. -/
def validLoop : List String → Bool × String
  | [] => (true, "")
  | kw :: rest =>
    if ¬ isValidKeyword kw then (false, UnsupportedOperationError)
    else if kw = KeywordMultiplied ∨ kw = KeywordDivided then
      match rest with
      | [] => (false, InvalidExpressionError)
      | b :: rest2 =>
        if b ≠ KeywordBy then (false, InvalidExpressionError)
        else
          match rest2 with
          | [] => (false, InvalidExpressionError)
          | z :: rest3 =>
            if kw = KeywordDivided ∧ goAtoi z = some 0 then (false, InvalidExpressionError)
            else if (goAtoi z).isNone then (false, InvalidExpressionError)
            else validLoop rest3
    else
      match rest with
      | [] => (false, InvalidExpressionError)
      | t :: rest2 =>
        if (goAtoi t).isNone then (false, InvalidExpressionError)
        else validLoop rest2

/-- Function `validateExpression` from webApi.go:101-152. -/
def validateExpression (s : String) : Bool × String :=
  if s.data = [] ∨ s.data.getLast? ≠ some '?' then (false, InvalidExpressionError)
  else
    match tokensOf s with
    | w :: i :: c :: rest =>
      if w ≠ KeywordWhat ∨ i ≠ KeywordIs then (false, NonMathQuestionError)
      else if (goAtoi c).isNone then (false, InvalidExpressionError)
      else validLoop rest
    | _ => (false, NonMathQuestionError)

/-- The accumulator walk of `evaluateExpression` (webApi.go:168-191).
`none` marks the out-of-bounds accesses `fields[i+2]` that would panic in
Go; the `i+1 >= len(fields)` guard of the source returns
`(0, InvalidExpressionError)` before the keyword switch. -/
def evalLoop : List String → Rat → Option (Rat × String)
  | [], acc => some (acc, "")
  | kw :: rest, acc =>
    match rest with
    | [] => some (0, InvalidExpressionError)
    | t1 :: rest2 =>
      if kw = KeywordPlus then evalLoop rest2 (acc + parseNum t1)
      else if kw = KeywordMinus then evalLoop rest2 (acc - parseNum t1)
      else if kw = KeywordMultiplied then
        match rest2 with
        | [] => none
        | t2 :: rest3 => evalLoop rest3 (acc * parseNum t2)
      else if kw = KeywordDivided then
        match rest2 with
        | [] => none
        | t2 :: rest3 => evalLoop rest3 (acc / parseNum t2)
      else some (0, UnsupportedOperationError)

/-- Function `evaluateExpression` from webApi.go:154-194.  `none` marks the panic of
the unguarded `fields[2]` access (unreachable after a successful
validation). -/
def evaluateExpression (s : String) : Option (Rat × String) :=
  let v := validateExpression s
  if v.1 = false then some (0, v.2)
  else
    match tokensOf s with
    | _ :: _ :: c :: rest => evalLoop rest (parseNum c)
    | _ => none

/-- Spec-side description of one step of the evaluator: the arithmetic
operation selected by a keyword, applied to accumulator and operand. -/
def opApply (op : String) (a x : Rat) : Rat :=
  if op = KeywordPlus then a + x
  else if op = KeywordMinus then a - x
  else if op = KeywordMultiplied then a * x
  else a / x

/-- Spec-side description of the pairing scheme: the keyword/operand pairs of
a token tail, a `by` token being consumed after `multiplied`/`divided`. -/
def extractPairs : List String → List (String × String)
  | [] => []
  | [_] => []
  | kw :: t1 :: rest =>
    if kw = KeywordMultiplied ∨ kw = KeywordDivided then
      match rest with
      | [] => []
      | t2 :: rest2 => (kw, t2) :: extractPairs rest2
    else (kw, t1) :: extractPairs rest

/-- Spec-side description of the whole evaluation pass: the strict
left-to-right fold of `opApply` over the keyword/operand pairs. -/
def foldPairs (acc : Rat) (l : List String) : Rat :=
  (extractPairs l).foldl (fun a p => opApply p.1 a (parseNum p.2)) acc

/-- Struct `MessageType` from webApi.go: the key of the process-wide error map —
original expression text plus endpoint path. -/
structure MessageType where
  content : String
  endpoint : String
deriving DecidableEq

/-- Struct `MessageInfo` from webApi.go: the stored record — occurrence count and
error type.  The Go `int` counter is modelled as an unbounded integer. -/
structure MessageInfo where
  frequency : Int
  errorType : String
deriving DecidableEq

/-- The `evaluationErrors` map, modelled as a partial map from keys to
records (`none` = no entry). -/
def ErrStore : Type := MessageType → Option MessageInfo

/-- The record-a-failure block shared by both handlers (webApi.go:209-218
and 239-248): a fresh record `{1, message}` on first failure; on repeats the
existing record with its frequency incremented (its error type kept). -/
def recordFailure (store : ErrStore) (key : MessageType) (message : String) : ErrStore :=
  fun k =>
    if k = key then
      some (match store key with
        | none => { frequency := 1, errorType := message }
        | some info => { frequency := info.frequency + 1, errorType := info.errorType })
    else store k

/-- The error-store effect of `evaluateHandler` (webApi.go:196-223) on a
request whose decoded expression is `expr`.  The empty expression is the
`reflect.DeepEqual` zero-value guard rejecting the request before the core
runs; a `none` from the evaluator would be a panic aborting the handler
before the store write. -/
def evaluateHandler (store : ErrStore) (expr : String) : ErrStore :=
  if expr = "" then store
  else
    match evaluateExpression expr with
    | none => store
    | some (_, message) =>
      if message ≠ "" then
        recordFailure store { content := expr, endpoint := EvaluateEndpoint } message
      else store

/-- The error-store effect of `validateHandler` (webApi.go:225-250). -/
def validateHandler (store : ErrStore) (expr : String) : ErrStore :=
  if expr = "" then store
  else
    let v := validateExpression expr
    if v.2 ≠ "" then
      recordFailure store { content := expr, endpoint := ValidateEndpoint } v.2
    else store

/-- When `strconv.Atoi` succeeds, `parseNum` is the plain integer value. -/
theorem parseNum_eq_int (s : String) (n : Int) (h : goAtoi s = some n) :
    parseNum s = (n : Rat) := by
  unfold goAtoi at h
  unfold parseNum
  cases hr : atoiRaw s.data with
  | none => rw [hr] at h; cases h
  | some m =>
    rw [hr] at h
    dsimp only at h ⊢
    by_cases hc : m < goMinInt ∨ goMaxInt < m
    · rw [if_pos hc] at h; cases h
    · rw [if_neg hc] at h
      cases h
      rw [if_neg (fun hlt => hc (Or.inr hlt)), if_neg (fun hlt => hc (Or.inl hlt))]

attribute [simp] InvalidExpressionError UnsupportedOperationError NonMathQuestionError
attribute [simp] KeywordPlus KeywordMinus KeywordMultiplied KeywordDivided KeywordBy
attribute [simp] KeywordWhat KeywordIs EvaluateEndpoint ValidateEndpoint

@[simp] theorem isValidKeyword_plus : isValidKeyword "plus" = true := by decide

@[simp] theorem isValidKeyword_minus : isValidKeyword "minus" = true := by decide

@[simp] theorem isValidKeyword_multiplied : isValidKeyword "multiplied" = true := by decide

@[simp] theorem isValidKeyword_divided : isValidKeyword "divided" = true := by decide

/-- The keyword check of the source loop recognises exactly the four
operation keywords. -/
theorem isValidKeyword_iff (kw : String) :
    isValidKeyword kw = true ↔
      kw = KeywordPlus ∨ kw = KeywordMinus ∨ kw = KeywordMultiplied ∨ kw = KeywordDivided := by
  simp [isValidKeyword]

theorem isSome_of_not_isNone {α : Type} {o : Option α} (h : ¬ o.isNone = true) :
    o.isSome = true := by
  cases o with
  | none => exact absurd rfl h
  | some v => rfl

/-- Core invariant of the pair walk: a token tail accepted by the
validator's loop is consumed by the evaluator's loop without any
out-of-bounds access, produces reason `""`, computes the left-to-right fold
over its keyword/operand pairs, and every operand token in those pairs
parses as an integer. -/
theorem validLoop_main (l : List String) (hv : (validLoop l).1 = true) :
    validLoop l = (true, "") ∧
      (∀ acc : Rat, evalLoop l acc = some (foldPairs acc l, "")) ∧
      (∀ p ∈ extractPairs l, (goAtoi p.2).isSome = true) := by
  induction l using validLoop.induct with
  | case1 => exact ⟨rfl, fun _ => rfl, by simp [extractPairs]⟩
  | case2 z rest3 h1 =>
    rcases rest3 with _ | ⟨a, _ | ⟨b, t⟩⟩ <;> simp [validLoop, h1] at hv
  | case3 z h1 h2 =>
    rcases h2 with h2 | h2 <;> subst h2 <;> simp [validLoop] at hv
  | case4 z h1 h2 z1 rest3 h3 =>
    simp only [KeywordBy] at h3
    rcases rest3 with _ | ⟨a, t⟩ <;>
      rcases h2 with h2 | h2 <;> subst h2 <;> simp [validLoop, h3] at hv
  | case5 z h1 h2 z1 h3 =>
    rcases h2 with h2 | h2 <;> subst h2 <;> simp [validLoop] at hv
  | case6 z h1 h2 z1 h3 z2 rest3 h4 =>
    obtain ⟨h4a, h4b⟩ := h4
    subst h4a
    simp only [ne_eq, not_not] at h3
    subst h3
    simp [validLoop, h4b] at hv
  | case7 z h1 h2 z1 h3 z2 rest3 h4 h5 =>
    simp only [ne_eq, not_not] at h3
    subst h3
    have h5' : goAtoi z2 = none := by
      cases hgo : goAtoi z2 with
      | none => rfl
      | some v => rw [hgo] at h5; cases h5
    rcases h2 with h2 | h2 <;> subst h2 <;> simp [validLoop, h5'] at hv
  | case8 z h1 h2 z1 h3 z2 rest3 h4 h5 ih =>
    rw [not_not] at h1
    simp only [ne_eq, not_not] at h3
    subst h3
    have hs : (goAtoi z2).isSome = true := isSome_of_not_isNone h5
    rcases h2 with h2 | h2 <;> subst h2
    · have hv' : (validLoop rest3).1 = true := by
        simpa [validLoop, h5] using hv
      obtain ⟨ha, hb, hc⟩ := ih hv'
      refine ⟨by simp [validLoop, h5, ha], ?_, ?_⟩
      · intro acc
        simp [evalLoop, foldPairs, extractPairs, opApply, hb]
      · intro p hp
        simp [extractPairs] at hp
        rcases hp with rfl | hp
        · exact hs
        · exact hc p hp
    · have h40 : goAtoi z2 ≠ some 0 := fun hz => h4 ⟨rfl, hz⟩
      have hv' : (validLoop rest3).1 = true := by
        simpa [validLoop, h5, h40] using hv
      obtain ⟨ha, hb, hc⟩ := ih hv'
      refine ⟨by simp [validLoop, h5, h40, ha], ?_, ?_⟩
      · intro acc
        simp [evalLoop, foldPairs, extractPairs, opApply, hb]
      · intro p hp
        simp [extractPairs] at hp
        rcases hp with rfl | hp
        · exact hs
        · exact hc p hp
  | case9 z h1 h2 =>
    rw [not_not] at h1
    simp [validLoop, h1] at hv
  | case10 z h1 h2 z1 rest3 h3 =>
    rw [not_not] at h1
    simp only [KeywordMultiplied, KeywordDivided] at h2
    rcases rest3 with _ | ⟨b, t⟩ <;> simp [validLoop, h1, h2, h3] at hv
  | case11 z h1 h2 z1 rest3 h3 ih =>
    rw [not_not] at h1
    have hs : (goAtoi z1).isSome = true := isSome_of_not_isNone h3
    have hz : z = KeywordPlus ∨ z = KeywordMinus := by
      rcases (isValidKeyword_iff z).mp h1 with h | h | h | h
      · exact Or.inl h
      · exact Or.inr h
      · exact absurd (Or.inl h) h2
      · exact absurd (Or.inr h) h2
    rcases rest3 with _ | ⟨b, t⟩
    · rcases hz with hz | hz <;> subst hz
      · refine ⟨by simp [validLoop, h3], fun acc => by
          simp [evalLoop, foldPairs, extractPairs, opApply], ?_⟩
        intro p hp
        simp [extractPairs] at hp
        subst hp
        exact hs
      · refine ⟨by simp [validLoop, h3], fun acc => by
          simp [evalLoop, foldPairs, extractPairs, opApply], ?_⟩
        intro p hp
        simp [extractPairs] at hp
        subst hp
        exact hs
    · have hv' : (validLoop (b :: t)).1 = true := by
        rcases hz with hz | hz <;> subst hz <;>
          simpa [validLoop, h3] using hv
      obtain ⟨ha, hb, hc⟩ := ih hv'
      rcases hz with hz | hz <;> subst hz
      · refine ⟨by simp [validLoop, h3, ha], fun acc => by
          simp [evalLoop, foldPairs, extractPairs, opApply, hb], ?_⟩
        intro p hp
        simp [extractPairs] at hp
        rcases hp with rfl | hp
        · exact hs
        · exact hc p hp
      · refine ⟨by simp [validLoop, h3, ha], fun acc => by
          simp [evalLoop, foldPairs, extractPairs, opApply, hb], ?_⟩
        intro p hp
        simp [extractPairs] at hp
        rcases hp with rfl | hp
        · exact hs
        · exact hc p hp

/-- On a rejected expression the evaluator returns `(0, reason)` with the
validator's reason, unchanged (webApi.go:157-159). -/
theorem evaluateExpression_of_invalid (s r : String)
    (h : validateExpression s = (false, r)) :
    evaluateExpression s = some (0, r) := by
  simp [evaluateExpression, h]

/-- An accepted expression has token shape `what :: is :: c :: rest` with a
parsing first operand, a pair walk that succeeds, and an evaluation equal to
the left-to-right fold. -/
theorem validateExpression_true_shape (s r : String)
    (h : validateExpression s = (true, r)) :
    r = "" ∧ ∃ c rest, tokensOf s = KeywordWhat :: KeywordIs :: c :: rest ∧
      (goAtoi c).isSome = true ∧ validLoop rest = (true, "") ∧
      evaluateExpression s = some (foldPairs (parseNum c) rest, "") := by
  have hcopy := h
  unfold validateExpression at h
  split at h
  · cases h
  · split at h
    next w i c rest heq =>
      split at h
      · cases h
      next hcond =>
        split at h
        · cases h
        next hnum =>
          have hwi : w = KeywordWhat ∧ i = KeywordIs := by
            rcases not_or.mp hcond with ⟨hw, hi⟩
            exact ⟨not_not.mp hw, not_not.mp hi⟩
          obtain ⟨rfl, rfl⟩ := hwi
          have h1 : (validLoop rest).1 = true := by rw [h]
          obtain ⟨ha, hb, -⟩ := validLoop_main rest h1
          have hr : r = "" := by
            have := h.symm.trans ha
            simpa using this
          refine ⟨hr, c, rest, heq, ?_, ha, ?_⟩
          · exact isSome_of_not_isNone hnum
          · simp only [evaluateExpression, hcopy, hr]
            rw [heq]
            simp [hb]
    next hne =>
      cases h

/-- C1: `evaluateExpression` and `validateExpression` agree on
well-formedness and on the failure reason: an expression the validator
rejects with reason `r ≠ ""` evaluates to `(0, r)` with the identical
reason, an expression the validator accepts evaluates to some value with
reason `""`, and every reason the evaluator returns is exactly the
validator's reason. -/
theorem C1_evaluator_validator_agree (s : String) :
    (∀ r, validateExpression s = (false, r) → r ≠ "" → evaluateExpression s = some (0, r)) ∧
      (validateExpression s = (true, "") → ∃ v, evaluateExpression s = some (v, "")) ∧
      (∀ v r, evaluateExpression s = some (v, r) → r = (validateExpression s).2) := by
  refine ⟨fun r hf _ => evaluateExpression_of_invalid s r hf, ?_, ?_⟩
  · intro hv
    obtain ⟨-, c, rest, -, -, -, he⟩ := validateExpression_true_shape s "" hv
    exact ⟨_, he⟩
  · intro v r he
    rcases hv : validateExpression s with ⟨b, r0⟩
    cases b
    · have h2 := (evaluateExpression_of_invalid s r0 hv).symm.trans he
      have h3 := Option.some.inj h2
      rw [Prod.ext_iff] at h3
      exact h3.2.symm
    · obtain ⟨hr0, c, rest, -, -, -, he'⟩ := validateExpression_true_shape s r0 hv
      have h2 := he'.symm.trans he
      have h3 := Option.some.inj h2
      rw [Prod.ext_iff] at h3
      rw [hr0]
      exact h3.2.symm

/-- Witness for C1 at two concrete inputs: a missing `?` propagates the
validator's reason through the evaluator, and a valid expression evaluates
with reason `""`. -/
theorem C1_evaluator_validator_agree_witness :
    evaluateExpression "What is 1 plus" = some (0, InvalidExpressionError) ∧
      ∃ v, evaluateExpression "What is 1 minus 4?" = some (v, "") :=
  ⟨(C1_evaluator_validator_agree "What is 1 plus").1 InvalidExpressionError (by decide) (by decide),
    (C1_evaluator_validator_agree "What is 1 minus 4?").2.1 (by decide)⟩

/-- C2: for every accepted expression the evaluator computes the strict
left-to-right fold: the accumulator starts at the value of token 2 and each
keyword/operand pair applies `+`, `-`, `*` or `/` in token order with no
operator precedence; in particular the two scenario expressions evaluate to
5 and 50 with reason `""`. -/
theorem C2_left_to_right_fold :
    (∀ s c rest, validateExpression s = (true, "") →
        tokensOf s = KeywordWhat :: KeywordIs :: c :: rest →
        evaluateExpression s = some (foldPairs (parseNum c) rest, "")) ∧
      evaluateExpression "What is 2 plus 3?" = some (5, "") ∧
      evaluateExpression "What is 5 multiplied by 10?" = some (50, "") := by
  refine ⟨?_, ?_, ?_⟩
  · intro s c rest hval htok
    obtain ⟨-, c', rest', htok', -, -, heval⟩ := validateExpression_true_shape s "" hval
    rw [htok] at htok'
    simp at htok'
    obtain ⟨rfl, rfl⟩ := htok'
    exact heval
  · have hv : validateExpression "What is 2 plus 3?" = (true, "") := by decide
    have ht : tokensOf "What is 2 plus 3?" = ["what", "is", "2", "plus", "3"] := by decide
    have h2 : parseNum "2" = (2 : Rat) := parseNum_eq_int _ 2 (by decide)
    have h3 : parseNum "3" = (3 : Rat) := parseNum_eq_int _ 3 (by decide)
    simp [evaluateExpression, hv, ht, evalLoop, h2, h3]
    norm_num
  · have hv : validateExpression "What is 5 multiplied by 10?" = (true, "") := by decide
    have ht : tokensOf "What is 5 multiplied by 10?" =
        ["what", "is", "5", "multiplied", "by", "10"] := by decide
    have h5 : parseNum "5" = (5 : Rat) := parseNum_eq_int _ 5 (by decide)
    have h10 : parseNum "10" = (10 : Rat) := parseNum_eq_int _ 10 (by decide)
    simp [evaluateExpression, hv, ht, evalLoop, h5, h10]
    norm_num

/-- Witness for C2's universally quantified part at a concrete accepted
expression. -/
theorem C2_left_to_right_fold_witness :
    evaluateExpression "What is 2 plus 7?" = some (foldPairs (parseNum "2") ["plus", "7"], "") :=
  C2_left_to_right_fold.1 "What is 2 plus 7?" "2" ["plus", "7"] (by decide) (by decide)

/-- C6: both core functions are total: `validateExpression` always returns a
`(bool, reason)` pair (it is a total Lean function on all strings), and
`evaluateExpression` never reaches an out-of-bounds token access — the
`none` that models a Go panic never occurs, for any input string. -/
theorem C6_total_no_panic (s : String) : ∃ p, evaluateExpression s = some p := by
  rcases hv : validateExpression s with ⟨b, r⟩
  cases b
  · exact ⟨(0, r), evaluateExpression_of_invalid s r hv⟩
  · obtain ⟨-, c, rest, -, -, -, he⟩ := validateExpression_true_shape s r hv
    exact ⟨_, he⟩

/-- C9: an expression with zero operation pairs — token form
`what is N ?` with `N` an integer — is valid, and evaluates to the widened
value of `N` with reason `""`, the pair walk running zero iterations. -/
theorem C9_single_operand (s c : String) (n : Int)
    (h1 : s.data.getLast? = some '?')
    (h2 : tokensOf s = [KeywordWhat, KeywordIs, c])
    (h3 : goAtoi c = some n) :
    validateExpression s = (true, "") ∧ evaluateExpression s = some ((n : Rat), "") := by
  have hne : ¬ (s.data = [] ∨ s.data.getLast? ≠ some '?') := by
    rintro (he | hq)
    · rw [he] at h1; cases h1
    · exact hq h1
  have hs : validateExpression s = (true, "") := by
    unfold validateExpression
    rw [if_neg hne, h2]
    simp [h3, validLoop]
  refine ⟨hs, ?_⟩
  simp only [evaluateExpression, hs, h2]
  simp [evalLoop, parseNum_eq_int c n h3]

/-- Witness for C9 at the concrete expression `What is 42?`. -/
theorem C9_single_operand_witness :
    validateExpression "What is 42?" = (true, "") ∧
      evaluateExpression "What is 42?" = some (((42 : Int) : Rat), "") :=
  C9_single_operand "What is 42?" "42" 42 (by decide) (by decide) (by decide)

/-- C3: the validator's checks apply in a fixed priority order: first an
empty string or one not ending in `?` gives `InvalidExpression`; next fewer
than 3 tokens or a wrong `what is` prefix gives `NonMathQuestion`; only
after the prefix is confirmed is token 2 parsed, a non-integer giving
`InvalidExpression`; hence the two scenario classifications. -/
theorem C3_priority_order :
    (∀ s, (s.data = [] ∨ s.data.getLast? ≠ some '?') →
        validateExpression s = (false, InvalidExpressionError)) ∧
      (∀ s, s.data.getLast? = some '?' →
        ((tokensOf s).length < 3 ∨ (tokensOf s).get? 0 ≠ some KeywordWhat ∨
            (tokensOf s).get? 1 ≠ some KeywordIs) →
        validateExpression s = (false, NonMathQuestionError)) ∧
      (∀ s c rest, s.data.getLast? = some '?' →
        tokensOf s = KeywordWhat :: KeywordIs :: c :: rest → goAtoi c = none →
        validateExpression s = (false, InvalidExpressionError)) ∧
      validateExpression "What is plus 3?" = (false, InvalidExpressionError) ∧
      validateExpression "What day is it today?" = (false, NonMathQuestionError) := by
  refine ⟨?_, ?_, ?_, by decide, by decide⟩
  · intro s hcond
    unfold validateExpression
    rw [if_pos hcond]
  · intro s hq hbad
    have hne : ¬ (s.data = [] ∨ s.data.getLast? ≠ some '?') := by
      rintro (he | hq2)
      · rw [he] at hq; cases hq
      · exact hq2 hq
    rcases htok : tokensOf s with _ | ⟨w, _ | ⟨i, _ | ⟨c, rest⟩⟩⟩
    · unfold validateExpression; rw [if_neg hne, htok]
    · unfold validateExpression; rw [if_neg hne, htok]
    · unfold validateExpression; rw [if_neg hne, htok]
    · have hwi : w ≠ KeywordWhat ∨ i ≠ KeywordIs := by
        rw [htok] at hbad
        rcases hbad with hlen | hbad | hbad
        · exfalso
          simp only [List.length_cons] at hlen
          omega
        · left
          intro hw
          exact hbad (by rw [hw]; rfl)
        · right
          intro hi
          exact hbad (by rw [hi]; rfl)
      unfold validateExpression
      rw [if_neg hne, htok]
      dsimp only
      rw [if_pos hwi]
  · intro s c rest hq htok hatoi
    have hne : ¬ (s.data = [] ∨ s.data.getLast? ≠ some '?') := by
      rintro (he | hq2)
      · rw [he] at hq; cases hq
      · exact hq2 hq
    unfold validateExpression
    rw [if_neg hne, htok]
    simp [hatoi]

/-- Witness for C3's three ordered checks at concrete inputs. -/
theorem C3_priority_order_witness :
    validateExpression "hello" = (false, InvalidExpressionError) ∧
      validateExpression "Who is 1?" = (false, NonMathQuestionError) ∧
      validateExpression "What is x?" = (false, InvalidExpressionError) :=
  ⟨C3_priority_order.1 "hello" (by decide),
    C3_priority_order.2.1 "Who is 1?" (by decide) (by decide),
    C3_priority_order.2.2.1 "What is x?" "x" [] (by decide) (by decide) (by decide)⟩

/-- C4 counterexample: the expression below contains the consecutive tokens
`divided`, `by`, `0` with a zero divisor parsing as `0`, yet the validator
reports `NonMathQuestion`, not `InvalidExpression`, because the `what is`
prefix check fires first: the claim as stated, quantifying over every
expression containing `divided by 0`, is false. -/
theorem C4_counterexample :
    tokensOf "Who is 1 divided by 0?" = ["who", "is", "1", "divided", "by", "0"] ∧
      goAtoi "0" = some 0 ∧
      validateExpression "Who is 1 divided by 0?" = (false, NonMathQuestionError) ∧
      validateExpression "Who is 1 divided by 0?" ≠ (false, InvalidExpressionError) :=
  ⟨by decide, by decide, by decide, by decide⟩

/-- C4 (amended): whenever the validator's pair walk reaches `divided` at a
keyword position immediately followed by `by` and a token parsing as the
integer 0, it fails with `InvalidExpression` — rejection is at validation
time (scenario 3) — and a zero operand anywhere else is not specially
flagged and does not by itself cause rejection. -/
theorem C4_divide_by_zero (z : String) (rest : List String)
    (hz : goAtoi z = some 0) :
    validLoop (KeywordDivided :: KeywordBy :: z :: rest) = (false, InvalidExpressionError) ∧
      validateExpression "What is 2 multiplied by 3 divided by 0?" =
        (false, InvalidExpressionError) ∧
      validateExpression "What is 0 plus 0?" = (true, "") ∧
      validateExpression "What is 0 divided by 2?" = (true, "") := by
  refine ⟨?_, by decide, by decide, by decide⟩
  simp [validLoop, hz]

/-- Witness for C4 (amended) at the concrete divisor token `0`. -/
theorem C4_divide_by_zero_witness :
    validLoop [KeywordDivided, KeywordBy, "0"] = (false, InvalidExpressionError) ∧
      validateExpression "What is 2 multiplied by 3 divided by 0?" =
        (false, InvalidExpressionError) ∧
      validateExpression "What is 0 plus 0?" = (true, "") ∧
      validateExpression "What is 0 divided by 2?" = (true, "") :=
  C4_divide_by_zero "0" [] (by decide)

/-- C5: each malformed continuation of the pair walk yields
`InvalidExpression` — `multiplied`/`divided` whose next token is missing or
not literally `by`; a keyword (or keyword plus `by`) at the end of the
tokens with no operand; a non-integer operand — while a token in keyword
position that is not one of the four operation keywords yields
`UnsupportedOperation`; with the two scenario expressions as instances. -/
theorem C5_pair_walk_failures :
    (∀ kw rest, (kw = KeywordMultiplied ∨ kw = KeywordDivided) →
        rest.head? ≠ some KeywordBy →
        validLoop (kw :: rest) = (false, InvalidExpressionError)) ∧
      (∀ kw, isValidKeyword kw = true →
        validLoop [kw] = (false, InvalidExpressionError)) ∧
      validLoop [KeywordMultiplied, KeywordBy] = (false, InvalidExpressionError) ∧
      validLoop [KeywordDivided, KeywordBy] = (false, InvalidExpressionError) ∧
      (∀ kw t rest, (kw = KeywordPlus ∨ kw = KeywordMinus) → goAtoi t = none →
        validLoop (kw :: t :: rest) = (false, InvalidExpressionError)) ∧
      (∀ kw t rest, (kw = KeywordMultiplied ∨ kw = KeywordDivided) → goAtoi t = none →
        validLoop (kw :: KeywordBy :: t :: rest) = (false, InvalidExpressionError)) ∧
      (∀ kw rest, ¬ isValidKeyword kw = true →
        validLoop (kw :: rest) = (false, UnsupportedOperationError)) ∧
      validateExpression "What is 15 divided 3?" = (false, InvalidExpressionError) ∧
      validateExpression "What is 10 plus plus 20?" = (false, InvalidExpressionError) := by
  refine ⟨?_, ?_, by decide, by decide, ?_, ?_, ?_, by decide, by decide⟩
  · intro kw rest hkw hb
    rcases rest with _ | ⟨b, rest2⟩
    · rcases hkw with rfl | rfl <;> simp [validLoop]
    · have hb' : ¬ b = KeywordBy := by
        intro hbe
        exact hb (by rw [hbe]; rfl)
      simp only [KeywordBy] at hb'
      rcases rest2 with _ | ⟨x, r3⟩ <;>
        rcases hkw with rfl | rfl <;> simp [validLoop, hb']
  · intro kw h
    rcases (isValidKeyword_iff kw).mp h with rfl | rfl | rfl | rfl <;> simp [validLoop]
  · intro kw t rest hkw ht
    rcases rest with _ | ⟨x, r2⟩ <;>
      rcases hkw with rfl | rfl <;> simp [validLoop, ht]
  · intro kw t rest hkw ht
    rcases hkw with rfl | rfl <;> simp [validLoop, ht]
  · intro kw rest h
    rcases rest with _ | ⟨a, _ | ⟨b, t⟩⟩ <;> simp [validLoop, h]

/-- Witness for C5's quantified parts at concrete token tails. -/
theorem C5_pair_walk_failures_witness :
    validLoop [KeywordDivided, "3"] = (false, InvalidExpressionError) ∧
      validLoop ["plus", "x"] = (false, InvalidExpressionError) ∧
      validLoop ["foo"] = (false, UnsupportedOperationError) :=
  ⟨C5_pair_walk_failures.1 KeywordDivided ["3"] (Or.inr rfl) (by decide),
    C5_pair_walk_failures.2.2.2.2.1 "plus" "x" [] (Or.inl rfl) (by decide),
    C5_pair_walk_failures.2.2.2.2.2.2.1 "foo" [] (by decide)⟩

/-- C8 counterexample: `strconv.Atoi` accepts signed integers, so the
expression with the negative operand `-3` is accepted by the validator,
contradicting the claim that such expressions are not accepted. -/
theorem C8_counterexample :
    validateExpression "What is 2 plus -3?" = (true, "") ∧
      goAtoi "-3" = some (-3) :=
  ⟨by decide, by decide⟩

/-- C8 (amended): every operand token of an accepted expression — token 2
and each operand of the pair walk — parses as a signed integer via Atoi,
but not necessarily a non-negative one: negative operands such as in
`What is 2 plus -3?` are accepted and evaluated. -/
theorem C8_operands_parse (s c : String) (rest : List String)
    (h : validateExpression s = (true, ""))
    (htok : tokensOf s = KeywordWhat :: KeywordIs :: c :: rest) :
    ((goAtoi c).isSome = true ∧ ∀ p ∈ extractPairs rest, (goAtoi p.2).isSome = true) ∧
      validateExpression "What is 2 plus -3?" = (true, "") ∧
      evaluateExpression "What is 2 plus -3?" = some (-1, "") := by
  refine ⟨?_, by decide, ?_⟩
  · obtain ⟨-, c', rest', htok', hc', hl', -⟩ := validateExpression_true_shape s "" h
    rw [htok] at htok'
    simp at htok'
    obtain ⟨rfl, rfl⟩ := htok'
    exact ⟨hc', (validLoop_main rest (by rw [hl'])).2.2⟩
  · have hv : validateExpression "What is 2 plus -3?" = (true, "") := by decide
    have ht : tokensOf "What is 2 plus -3?" = ["what", "is", "2", "plus", "-3"] := by decide
    have h2 : parseNum "2" = (2 : Rat) := parseNum_eq_int _ 2 (by decide)
    have hm3 : parseNum "-3" = ((-3 : Int) : Rat) := parseNum_eq_int _ (-3) (by decide)
    simp [evaluateExpression, hv, ht, evalLoop, h2, hm3]
    norm_num

/-- Witness for C8 (amended) at the negative-operand expression itself. -/
theorem C8_operands_parse_witness :
    ((goAtoi "2").isSome = true ∧
        ∀ p ∈ extractPairs ["plus", "-3"], (goAtoi p.2).isSome = true) ∧
      validateExpression "What is 2 plus -3?" = (true, "") ∧
      evaluateExpression "What is 2 plus -3?" = some (-1, "") :=
  C8_operands_parse "What is 2 plus -3?" "2" ["plus", "-3"] (by decide) (by decide)

/-- Repeating `recordFailure` on its own key: starting from no entry, N+1
repetitions with message `r` yield frequency N+1 and error type `r`. -/
theorem recordFailure_iterate (key : MessageType) (r : String) :
    ∀ (N : Nat) (store0 : ErrStore), store0 key = none →
      ((fun st => recordFailure st key r)^[N + 1] store0) key =
        some { frequency := (N : Int) + 1, errorType := r } := by
  intro N
  induction N with
  | zero =>
    intro store0 h0
    rw [Function.iterate_one]
    simp [recordFailure, h0]
  | succ n ih =>
    intro store0 h0
    rw [Function.iterate_succ_apply']
    have hprev := ih store0 h0
    simp [recordFailure, hprev]

/-- On a non-empty failing expression the evaluate handler is exactly one
`recordFailure` on the evaluate-endpoint key, with the validator's reason. -/
theorem evaluateHandler_eq_record (expr r : String) (store : ErrStore)
    (h1 : expr ≠ "") (hf : validateExpression expr = (false, r)) (h3 : r ≠ "") :
    evaluateHandler store expr =
      recordFailure store { content := expr, endpoint := EvaluateEndpoint } r := by
  simp [evaluateHandler, h1, evaluateExpression_of_invalid expr r hf, h3]

/-- On a non-empty failing expression the validate handler is exactly one
`recordFailure` on the validate-endpoint key, with the validator's reason. -/
theorem validateHandler_eq_record (expr r : String) (store : ErrStore)
    (h1 : expr ≠ "") (hf : validateExpression expr = (false, r)) (h3 : r ≠ "") :
    validateHandler store expr =
      recordFailure store { content := expr, endpoint := ValidateEndpoint } r := by
  simp [validateHandler, h1, hf, h3]

/-- C7 (amended): for every non-empty failing expression submitted N ≥ 1
times to the same endpoint, the error store holds under the key
(expression, endpoint) exactly the record with frequency N and the
validator's reason as its type (the core being deterministic, that reason
is the reason of every failure of the expression, the most recent
included); the two endpoints use the two distinct keys and each handler
leaves every other key unchanged, so the two counters are independent. -/
theorem C7_error_store_counting (expr r : String) (h1 : expr ≠ "")
    (hf : validateExpression expr = (false, r)) (h3 : r ≠ "") :
    (∀ (N : Nat) (store0 : ErrStore),
        store0 { content := expr, endpoint := EvaluateEndpoint } = none →
        ((fun st => evaluateHandler st expr)^[N + 1] store0)
            { content := expr, endpoint := EvaluateEndpoint } =
          some { frequency := (N : Int) + 1, errorType := r }) ∧
      (∀ (N : Nat) (store0 : ErrStore),
        store0 { content := expr, endpoint := ValidateEndpoint } = none →
        ((fun st => validateHandler st expr)^[N + 1] store0)
            { content := expr, endpoint := ValidateEndpoint } =
          some { frequency := (N : Int) + 1, errorType := r }) ∧
      (∀ (store : ErrStore) (k : MessageType),
        k ≠ { content := expr, endpoint := EvaluateEndpoint } →
        evaluateHandler store expr k = store k) ∧
      (∀ (store : ErrStore) (k : MessageType),
        k ≠ { content := expr, endpoint := ValidateEndpoint } →
        validateHandler store expr k = store k) := by
  have hev : (fun st => evaluateHandler st expr) =
      (fun st => recordFailure st { content := expr, endpoint := EvaluateEndpoint } r) :=
    funext fun st => evaluateHandler_eq_record expr r st h1 hf h3
  have hva : (fun st => validateHandler st expr) =
      (fun st => recordFailure st { content := expr, endpoint := ValidateEndpoint } r) :=
    funext fun st => validateHandler_eq_record expr r st h1 hf h3
  refine ⟨?_, ?_, ?_, ?_⟩
  · intro N store0 h0
    rw [hev]
    exact recordFailure_iterate _ r N store0 h0
  · intro N store0 h0
    rw [hva]
    exact recordFailure_iterate _ r N store0 h0
  · intro store k hk
    rw [evaluateHandler_eq_record expr r store h1 hf h3]
    simp only [EvaluateEndpoint] at hk
    simp [recordFailure, hk]
  · intro store k hk
    rw [validateHandler_eq_record expr r store h1 hf h3]
    simp only [ValidateEndpoint] at hk
    simp [recordFailure, hk]

/-- Witness for C7 (amended): one submission of the failing expression
`What?` to the validate endpoint, starting from the empty store. -/
theorem C7_error_store_counting_witness :
    ((fun st => validateHandler st "What?")^[0 + 1] (fun _ => none))
        { content := "What?", endpoint := ValidateEndpoint } =
      some { frequency := (0 : Int) + 1, errorType := NonMathQuestionError } :=
  (C7_error_store_counting "What?" NonMathQuestionError (by decide) (by decide)
      (by decide)).2.1 0 (fun _ => none) rfl

/-- C7 counterexample: the empty expression is failing (the validator
rejects it with a non-empty reason), yet one submission of it to either
endpoint leaves the store without any record — the handlers' zero-value
request guard returns before the core or the store is touched — so the
claim's frequency-N property fails at N = 1 for this expression. -/
theorem C7_counterexample :
    (validateExpression "").1 = false ∧ (validateExpression "").2 ≠ "" ∧
      validateHandler (fun _ => none) "" { content := "", endpoint := ValidateEndpoint } =
        none ∧
      evaluateHandler (fun _ => none) "" { content := "", endpoint := EvaluateEndpoint } =
        none :=
  ⟨by decide, by decide, rfl, rfl⟩

/-- C10: successful calls leave the error store unchanged — whenever the
reason produced for the submitted expression is `""`, the handler returns
the store untouched — and any call modifies at most the single key
(expression, endpoint), leaving every other key's record unchanged. -/
theorem C10_frame (s : String) :
    (∀ (store : ErrStore) (v : Rat), evaluateExpression s = some (v, "") →
        evaluateHandler store s = store) ∧
      (∀ store : ErrStore, (validateExpression s).2 = "" →
        validateHandler store s = store) ∧
      (∀ (store : ErrStore) (k : MessageType),
        k ≠ { content := s, endpoint := EvaluateEndpoint } →
        evaluateHandler store s k = store k) ∧
      (∀ (store : ErrStore) (k : MessageType),
        k ≠ { content := s, endpoint := ValidateEndpoint } →
        validateHandler store s k = store k) := by
  refine ⟨?_, ?_, ?_, ?_⟩
  · intro store v he
    simp [evaluateHandler, he]
  · intro store hr
    simp [validateHandler, hr]
  · intro store k hk
    simp only [EvaluateEndpoint] at hk
    by_cases hs0 : s = ""
    · simp [evaluateHandler, hs0]
    · rcases he : evaluateExpression s with _ | ⟨v, msg⟩
      · simp [evaluateHandler, hs0, he]
      · by_cases hm : msg = ""
        · simp [evaluateHandler, hs0, he, hm]
        · simp [evaluateHandler, hs0, he, hm, recordFailure, hk]
  · intro store k hk
    simp only [ValidateEndpoint] at hk
    by_cases hs0 : s = ""
    · simp [validateHandler, hs0]
    · by_cases hm : (validateExpression s).2 = ""
      · simp [validateHandler, hs0, hm]
      · simp [validateHandler, hs0, hm, recordFailure, hk]

/-- Witness for C10 at a concrete valid expression and the empty store. -/
theorem C10_frame_witness :
    evaluateHandler (fun _ => none) "What is 7?" = (fun _ => none) ∧
      validateHandler (fun _ => none) "What is 7?" = (fun _ => none) :=
  ⟨(C10_frame "What is 7?").1 (fun _ => none) 7 (by decide),
    (C10_frame "What is 7?").2.1 (fun _ => none) (by decide)⟩

